import Mathlib

/-
Verification of the consume-trigger core of the nilability analyzer
(annotation/consume_trigger.go): trigger taxonomy, base evaluation
behaviors, consumption records, and the merge / guard-stamping /
set-equality algebra over them.

External collaborator types (annotation keys, annotation maps, guard
nonce sets, AST references) are modelled from the specification's
interface descriptions; identity-based equality of AST/declaration
references is modelled with arena indices, as the spec's design notes
prescribe.
-/

namespace NilAway

/-- Modelled from the spec: `Key` is an opaque identity for an annotatable
site (parameter, field, return slot, global, type); equality is by
underlying declaration identity, modelled as an arena index. -/
abbrev Key := Nat

/-- Modelled from the spec: a `GuardNonce` is an opaque unique token minted
externally, meaning "this value was observed under a matched safety check";
modelled as an arena index. -/
abbrev GuardNonce := Nat

/-- Modelled from the spec: a source position (`token.Pos`). -/
abbrev TokenPos := Nat

/-- Modelled from the spec: an `Annotation` record with two independent bits,
shallow and deep nilability, for the value at a `Key`. (Named `Annot` here.) -/
structure Annot where
  IsNilable : Bool
  IsDeepNilable : Bool
  deriving DecidableEq

/-- Modelled from the spec: an annotation map is a map-like snapshot from
`Key` to `Annot` in which "not found" is a distinct outcome. -/
abbrev Map := List (Key × Annot)

/-- Modelled from the spec: `Key.Lookup` returns the annotation at the key
together with a found flag, here an `Option`. -/
def Key.Lookup (k : Key) (annMap : Map) : Option Annot :=
  List.lookup k annMap

/-- Modelled from the spec: `GuardNonceSet` is a set of guard nonces with
union, copy, intersection, emptiness and content equality. -/
abbrev GuardNonceSet := Finset GuardNonce

/-- Modelled from the spec: `Add` inserts each of the given nonces. -/
def GuardNonceSet.Add (s : GuardNonceSet) (guards : List GuardNonce) : GuardNonceSet :=
  guards.foldl (fun acc g => insert g acc) s

/-- Modelled from the spec: `Copy` returns a set with the same content
(identity is logical content, so over immutable values it is the identity). -/
def GuardNonceSet.Copy (s : GuardNonceSet) : GuardNonceSet := s

/-- Modelled from the spec: `Intersection` of two guard nonce sets. -/
def GuardNonceSet.Intersection (s t : GuardNonceSet) : GuardNonceSet := s ∩ t

/-- TriggerKind classifies a trigger's discharge condition
(closed enum Always / Conditional / DeepConditional). -/
inductive TriggerKind where
  | Always
  | Conditional
  | DeepConditional
  deriving DecidableEq

/-- TriggerIfNonNil is triggered if the contained annotation site is non-nil
(base behavior struct embedded by the shallow-conditional variants). -/
structure TriggerIfNonNil where
  Ann : Key
  deriving DecidableEq

/-- Kind of TriggerIfNonNil returns Conditional. -/
def TriggerIfNonNil.Kind (_ : TriggerIfNonNil) : TriggerKind := .Conditional

/-- UnderlyingSite of TriggerIfNonNil is the contained annotation site. -/
def TriggerIfNonNil.UnderlyingSite (t : TriggerIfNonNil) : Option Key := some t.Ann

/-- CheckConsume of TriggerIfNonNil: true iff the underlying annotation is
present in the passed map and non-nil (`ok && !ann.IsNilable`). -/
def TriggerIfNonNil.CheckConsume (t : TriggerIfNonNil) (annMap : Map) : Bool :=
  match Key.Lookup t.Ann annMap with
  | some ann => !ann.IsNilable
  | none => false

/-- TriggerIfDeepNonNil is triggered if the contained annotation site is
deeply non-nil (base behavior struct embedded by the deep-conditional
variants). -/
structure TriggerIfDeepNonNil where
  Ann : Key
  deriving DecidableEq

/-- Kind of TriggerIfDeepNonNil returns DeepConditional. -/
def TriggerIfDeepNonNil.Kind (_ : TriggerIfDeepNonNil) : TriggerKind := .DeepConditional

/-- UnderlyingSite of TriggerIfDeepNonNil is the contained annotation site. -/
def TriggerIfDeepNonNil.UnderlyingSite (t : TriggerIfDeepNonNil) : Option Key := some t.Ann

/-- CheckConsume of TriggerIfDeepNonNil: true iff the underlying annotation is
present in the passed map and deeply non-nil (`ok && !ann.IsDeepNilable`). -/
def TriggerIfDeepNonNil.CheckConsume (t : TriggerIfDeepNonNil) (annMap : Map) : Bool :=
  match Key.Lookup t.Ann annMap with
  | some ann => !ann.IsDeepNilable
  | none => false

/-- ConsumeTriggerTautology is used at consumption sites where consuming nil
is always an error (base behavior struct embedded by the always-fire
variants). -/
structure ConsumeTriggerTautology where
  deriving DecidableEq

/-- Kind of ConsumeTriggerTautology returns Always. -/
def ConsumeTriggerTautology.Kind (_ : ConsumeTriggerTautology) : TriggerKind := .Always

/-- UnderlyingSite of ConsumeTriggerTautology always returns none (nil). -/
def ConsumeTriggerTautology.UnderlyingSite (_ : ConsumeTriggerTautology) : Option Key := none

/-- CheckConsume of ConsumeTriggerTautology returns true. -/
def ConsumeTriggerTautology.CheckConsume (_ : ConsumeTriggerTautology) (_ : Map) : Bool :=
  true

/-- Modelled from the spec: an `ast.Expr` reference, exposing a source
position; reference identity is modelled as an arena index. -/
structure AstExpr where
  id : Nat
  pos : TokenPos
  deriving DecidableEq

/-- Pos of an expression reference. -/
def AstExpr.Pos (e : AstExpr) : TokenPos := e.pos

/-- Modelled from the spec: an `*ast.ReturnStmt` reference with its source
position; reference identity is modelled as an arena index. -/
structure ReturnStmt where
  id : Nat
  pos : TokenPos
  deriving DecidableEq

/-- Pos of a return statement reference. -/
def ReturnStmt.Pos (r : ReturnStmt) : TokenPos := r.pos

/-- Modelled from the spec: a `*types.Var` declaration reference (local
variable identity), modelled as an arena index. -/
structure TypesVar where
  id : Nat
  deriving DecidableEq

/-- Modelled from the spec: the cross-reference pair
interfaceMethod / implementingMethod carried by the two
interface-affiliation variants; method identities as arena indices. -/
structure AffiliationPair where
  InterfaceMethod : Nat
  ImplementingMethod : Nat
  deriving DecidableEq

/-- ConsumingAnnotationTrigger: the closed taxonomy of consumption-site
variants. Each constructor embeds exactly one of the three base behavior
structs (mirroring Go struct embedding) plus the variant's own fields
relevant to behavior (return statement reference and named-return flag,
local variable, affiliation pair). Purely diagnostic string payloads are
not modelled. -/
inductive ConsumingAnnotationTrigger where
  | PtrLoad (base : ConsumeTriggerTautology)
  | MapAccess (base : ConsumeTriggerTautology)
  | MapWrittenTo (base : ConsumeTriggerTautology)
  | SliceAccess (base : ConsumeTriggerTautology)
  | FldAccess (base : ConsumeTriggerTautology)
  | UseAsErrorResult (base : TriggerIfNonNil) (RetStmt : ReturnStmt) (IsNamedReturn : Bool)
  | FldAssign (base : TriggerIfNonNil)
  | ArgFldPass (base : TriggerIfNonNil)
  | GlobalVarAssign (base : TriggerIfNonNil)
  | ArgPass (base : TriggerIfNonNil)
  | RecvPass (base : TriggerIfNonNil)
  | InterfaceResultFromImplementation (base : TriggerIfNonNil) (pair : AffiliationPair)
  | MethodParamFromInterface (base : TriggerIfNonNil) (pair : AffiliationPair)
  | UseAsReturn (base : TriggerIfNonNil) (IsNamedReturn : Bool) (RetStmt : ReturnStmt)
  | UseAsFldOfReturn (base : TriggerIfNonNil)
  | SliceAssign (base : TriggerIfDeepNonNil)
  | ArrayAssign (base : TriggerIfDeepNonNil)
  | PtrAssign (base : TriggerIfDeepNonNil)
  | MapAssign (base : TriggerIfDeepNonNil)
  | DeepAssignPrimitive (base : ConsumeTriggerTautology)
  | ParamAssignDeep (base : TriggerIfDeepNonNil)
  | FuncRetAssignDeep (base : TriggerIfDeepNonNil)
  | VariadicParamAssignDeep (base : TriggerIfNonNil)
  | FieldAssignDeep (base : TriggerIfDeepNonNil)
  | GlobalVarAssignDeep (base : TriggerIfDeepNonNil)
  | ChanAccess (base : ConsumeTriggerTautology)
  | LocalVarAssignDeep (base : ConsumeTriggerTautology) (LocalVar : TypesVar)
  | ChanSend (base : TriggerIfDeepNonNil)
  | FldEscape (base : TriggerIfNonNil)
  | UseAsNonErrorRetDependentOnErrorRetNilability (base : TriggerIfNonNil) (IsNamedReturn : Bool) (RetStmt : ReturnStmt)
  | UseAsErrorRetWithNilabilityUnknown (base : TriggerIfNonNil) (IsNamedReturn : Bool) (RetStmt : ReturnStmt)
  deriving DecidableEq

/-- BaseBehavior: which of the three base behavior structs a variant embeds. -/
inductive BaseBehavior where
  | ifNonNil (t : TriggerIfNonNil)
  | ifDeepNonNil (t : TriggerIfDeepNonNil)
  | tautology (t : ConsumeTriggerTautology)
  deriving DecidableEq

/-- The base behavior struct embedded by each variant (mirrors the embedded
struct chosen in each Go struct definition). -/
def ConsumingAnnotationTrigger.base : ConsumingAnnotationTrigger → BaseBehavior
  | .PtrLoad b => .tautology b
  | .MapAccess b => .tautology b
  | .MapWrittenTo b => .tautology b
  | .SliceAccess b => .tautology b
  | .FldAccess b => .tautology b
  | .UseAsErrorResult b _ _ => .ifNonNil b
  | .FldAssign b => .ifNonNil b
  | .ArgFldPass b => .ifNonNil b
  | .GlobalVarAssign b => .ifNonNil b
  | .ArgPass b => .ifNonNil b
  | .RecvPass b => .ifNonNil b
  | .InterfaceResultFromImplementation b _ => .ifNonNil b
  | .MethodParamFromInterface b _ => .ifNonNil b
  | .UseAsReturn b _ _ => .ifNonNil b
  | .UseAsFldOfReturn b => .ifNonNil b
  | .SliceAssign b => .ifDeepNonNil b
  | .ArrayAssign b => .ifDeepNonNil b
  | .PtrAssign b => .ifDeepNonNil b
  | .MapAssign b => .ifDeepNonNil b
  | .DeepAssignPrimitive b => .tautology b
  | .ParamAssignDeep b => .ifDeepNonNil b
  | .FuncRetAssignDeep b => .ifDeepNonNil b
  | .VariadicParamAssignDeep b => .ifNonNil b
  | .FieldAssignDeep b => .ifDeepNonNil b
  | .GlobalVarAssignDeep b => .ifDeepNonNil b
  | .ChanAccess b => .tautology b
  | .LocalVarAssignDeep b _ => .tautology b
  | .ChanSend b => .ifDeepNonNil b
  | .FldEscape b => .ifNonNil b
  | .UseAsNonErrorRetDependentOnErrorRetNilability b _ _ => .ifNonNil b
  | .UseAsErrorRetWithNilabilityUnknown b _ _ => .ifNonNil b

/-- CheckConsume of a base behavior (dispatch to the embedded struct). -/
def BaseBehavior.CheckConsume : BaseBehavior → Map → Bool
  | .ifNonNil t, annMap => t.CheckConsume annMap
  | .ifDeepNonNil t, annMap => t.CheckConsume annMap
  | .tautology t, annMap => t.CheckConsume annMap

/-- Kind of a base behavior. -/
def BaseBehavior.Kind : BaseBehavior → TriggerKind
  | .ifNonNil t => t.Kind
  | .ifDeepNonNil t => t.Kind
  | .tautology t => t.Kind

/-- UnderlyingSite of a base behavior. -/
def BaseBehavior.UnderlyingSite : BaseBehavior → Option Key
  | .ifNonNil t => t.UnderlyingSite
  | .ifDeepNonNil t => t.UnderlyingSite
  | .tautology t => t.UnderlyingSite

/-- CheckConsume of a trigger variant: promoted from its embedded base
behavior struct, exactly as Go method promotion does. -/
def ConsumingAnnotationTrigger.CheckConsume (t : ConsumingAnnotationTrigger) (annMap : Map) : Bool :=
  BaseBehavior.CheckConsume t.base annMap

/-- Kind of a trigger variant, promoted from its embedded base behavior. -/
def ConsumingAnnotationTrigger.Kind (t : ConsumingAnnotationTrigger) : TriggerKind :=
  BaseBehavior.Kind t.base

/-- UnderlyingSite of a trigger variant, promoted from its embedded base
behavior. -/
def ConsumingAnnotationTrigger.UnderlyingSite (t : ConsumingAnnotationTrigger) : Option Key :=
  BaseBehavior.UnderlyingSite t.base

/-- customPos: the default implementation on the three base structs returns
(0, false), i.e. none; exactly four variants override it - UseAsErrorResult,
UseAsReturn, UseAsNonErrorRetDependentOnErrorRetNilability and
UseAsErrorRetWithNilabilityUnknown - each returning the position of its
stored return statement when IsNamedReturn is set. -/
def ConsumingAnnotationTrigger.customPos : ConsumingAnnotationTrigger → Option TokenPos
  | .UseAsErrorResult _ retStmt isNamedReturn =>
    if isNamedReturn then some retStmt.Pos else none
  | .UseAsReturn _ isNamedReturn retStmt =>
    if isNamedReturn then some retStmt.Pos else none
  | .UseAsNonErrorRetDependentOnErrorRetNilability _ isNamedReturn retStmt =>
    if isNamedReturn then some retStmt.Pos else none
  | .UseAsErrorRetWithNilabilityUnknown _ isNamedReturn retStmt =>
    if isNamedReturn then some retStmt.Pos else none
  | _ => none

/-- ConsumeTrigger (consumption record): a trigger paired with the consumed
expression, its guard nonce set, and the guard-matched flag. The Go field
`Annotation` is named `Annot` here. -/
structure ConsumeTrigger where
  Annot : ConsumingAnnotationTrigger
  Expr : AstExpr
  Guards : GuardNonceSet
  GuardMatched : Bool
  deriving DecidableEq

/-- Eq compares two ConsumeTriggers: same trigger value, same expression
reference, same guard set content (`Guards.Eq`), same GuardMatched flag. -/
def ConsumeTrigger.Eq (c c2 : ConsumeTrigger) : Bool :=
  decide (c.Annot = c2.Annot) &&
    decide (c.Expr = c2.Expr) &&
    decide (c.Guards = c2.Guards) &&
    decide (c.GuardMatched = c2.GuardMatched)

/-- Pos returns the source position of the consumer's expression; in the
special cases where the trigger overrides customPos (named returns), it
returns the position of the stored return AST node. -/
def ConsumeTrigger.Pos (c : ConsumeTrigger) : TokenPos :=
  match ConsumingAnnotationTrigger.customPos c.Annot with
  | some pos => pos
  | none => AstExpr.Pos c.Expr

/-- The match test used inside MergeConsumeTriggerSlices: same trigger value
and same expression reference (guard state excluded). -/
def sameOb (a b : ConsumeTrigger) : Bool :=
  decide (a.Annot = b.Annot) && decide (a.Expr = b.Expr)

/-- The record built for a matched pair inside MergeConsumeTriggerSlices:
keeps the already-placed record's trigger and expression, intersects the
guard sets, ANDs the GuardMatched flags. -/
def mergeRec (outTrigger trigger : ConsumeTrigger) : ConsumeTrigger :=
  { Annot := outTrigger.Annot
    Expr := outTrigger.Expr
    Guards := GuardNonceSet.Intersection outTrigger.Guards trigger.Guards
    GuardMatched := outTrigger.GuardMatched && trigger.GuardMatched }

/-- The addToOut closure of MergeConsumeTriggerSlices: scan the accumulated
output for a record with the same trigger and expression; on the first
match replace it in place with the merged record, otherwise append. -/
def addToOut (out : List ConsumeTrigger) (trigger : ConsumeTrigger) : List ConsumeTrigger :=
  match out with
  | [] => [trigger]
  | outTrigger :: rest =>
    if sameOb outTrigger trigger then
      mergeRec outTrigger trigger :: rest
    else
      outTrigger :: addToOut rest trigger

/-- MergeConsumeTriggerSlices merges two slices of ConsumeTriggers; every
element of the left slice is added to the output first, then every element
of the right slice, each through addToOut. -/
def MergeConsumeTriggerSlices (left right : List ConsumeTrigger) : List ConsumeTrigger :=
  right.foldl addToOut (left.foldl addToOut [])

/-- ConsumeTriggerSliceAsGuarded returns a new slice identical except that
each trigger's guard set also contains the given guards; the GuardMatched
field is omitted in the Go struct literal, so it takes the zero value
false. -/
def ConsumeTriggerSliceAsGuarded (slice : List ConsumeTrigger) (guards : List GuardNonce) : List ConsumeTrigger :=
  slice.map fun trigger =>
    { Annot := trigger.Annot
      Expr := trigger.Expr
      Guards := GuardNonceSet.Add (GuardNonceSet.Copy trigger.Guards) guards
      GuardMatched := false }

/-- ConsumeTriggerSlicesEq returns true if the two passed slices contain the
same elements (precondition: no duplications); false immediately on length
mismatch, else an O(n^2) scan matching every left element to some right
element under Eq. -/
def ConsumeTriggerSlicesEq (left right : List ConsumeTrigger) : Bool :=
  if left.length = right.length then
    left.all fun l => right.any fun r => ConsumeTrigger.Eq l r
  else
    false

/-- The matching key used by the merge: trigger value and expression
reference, guard state excluded. -/
def matchKey (c : ConsumeTrigger) : ConsumingAnnotationTrigger × AstExpr :=
  (c.Annot, c.Expr)

/-- NoDupKeys: no two records of the slice share the matching key
(trigger value, expression reference). -/
def NoDupKeys (l : List ConsumeTrigger) : Prop :=
  l.Pairwise fun a b => sameOb a b = false

instance (l : List ConsumeTrigger) : Decidable (NoDupKeys l) :=
  inferInstanceAs (Decidable (l.Pairwise fun a b => sameOb a b = false))

/-- Specification-style description of the merge output: each left record,
merged with its unique right-side match when one exists, followed by the
right records that match no left record, in order. -/
def mergeSpecFn (left right : List ConsumeTrigger) : List ConsumeTrigger :=
  (left.map fun l =>
    match right.find? (fun r => sameOb l r) with
    | some r => mergeRec l r
    | none => l) ++
  right.filter fun r => !(left.any fun l => sameOb l r)

/-- Helper: CheckConsume of the shallow base behavior, characterized. -/
theorem ifNonNil_check_iff (k : Key) (annMap : Map) :
    TriggerIfNonNil.CheckConsume ⟨k⟩ annMap = true ↔
      ∃ ann, Key.Lookup k annMap = some ann ∧ Annot.IsNilable ann = false := by
  unfold TriggerIfNonNil.CheckConsume
  cases h : Key.Lookup k annMap with
  | none => simp
  | some ann => simp

/-- Helper: CheckConsume of the shallow base behavior on an absent key. -/
theorem ifNonNil_check_absent (k : Key) (annMap : Map)
    (h : Key.Lookup k annMap = none) :
    TriggerIfNonNil.CheckConsume ⟨k⟩ annMap = false := by
  unfold TriggerIfNonNil.CheckConsume
  rw [h]

/-- Helper: CheckConsume of the deep base behavior, characterized. -/
theorem ifDeepNonNil_check_iff (k : Key) (annMap : Map) :
    TriggerIfDeepNonNil.CheckConsume ⟨k⟩ annMap = true ↔
      ∃ ann, Key.Lookup k annMap = some ann ∧ Annot.IsDeepNilable ann = false := by
  unfold TriggerIfDeepNonNil.CheckConsume
  cases h : Key.Lookup k annMap with
  | none => simp
  | some ann => simp

/-- Helper: CheckConsume of the deep base behavior on an absent key. -/
theorem ifDeepNonNil_check_absent (k : Key) (annMap : Map)
    (h : Key.Lookup k annMap = none) :
    TriggerIfDeepNonNil.CheckConsume ⟨k⟩ annMap = false := by
  unfold TriggerIfDeepNonNil.CheckConsume
  rw [h]

/-- C4: for every key k and every annotation map, TriggerIfNonNil.CheckConsume
returns true iff k is found in the map and the found annotation's IsNilable
is false; in particular it returns false whenever k is absent. -/
theorem trigger_if_nonnil_check_consume_spec (k : Key) (annMap : Map) :
    (TriggerIfNonNil.CheckConsume ⟨k⟩ annMap = true ↔
      ∃ ann, Key.Lookup k annMap = some ann ∧ Annot.IsNilable ann = false) ∧
    (Key.Lookup k annMap = none → TriggerIfNonNil.CheckConsume ⟨k⟩ annMap = false) :=
  ⟨ifNonNil_check_iff k annMap, ifNonNil_check_absent k annMap⟩

/-- Witness for C4 at key 5: absent key evaluates to false, and a present
non-nilable key evaluates to true. -/
theorem trigger_if_nonnil_check_consume_spec_witness :
    TriggerIfNonNil.CheckConsume ⟨5⟩ [] = false ∧
    TriggerIfNonNil.CheckConsume ⟨5⟩ [(5, ⟨false, true⟩)] = true :=
  ⟨(trigger_if_nonnil_check_consume_spec 5 []).2 rfl,
   (trigger_if_nonnil_check_consume_spec 5 [(5, ⟨false, true⟩)]).1.mpr
     ⟨⟨false, true⟩, rfl, rfl⟩⟩

/-- C5: for every key k and every annotation map, TriggerIfDeepNonNil's
CheckConsume returns true iff k is found and the found annotation's
IsDeepNilable is false, false when absent; its Kind is DeepConditional and
its UnderlyingSite is k. -/
theorem trigger_if_deep_nonnil_spec (k : Key) (annMap : Map) :
    (TriggerIfDeepNonNil.CheckConsume ⟨k⟩ annMap = true ↔
      ∃ ann, Key.Lookup k annMap = some ann ∧ Annot.IsDeepNilable ann = false) ∧
    (Key.Lookup k annMap = none → TriggerIfDeepNonNil.CheckConsume ⟨k⟩ annMap = false) ∧
    TriggerIfDeepNonNil.Kind ⟨k⟩ = TriggerKind.DeepConditional ∧
    TriggerIfDeepNonNil.UnderlyingSite ⟨k⟩ = some k :=
  ⟨ifDeepNonNil_check_iff k annMap, ifDeepNonNil_check_absent k annMap, rfl, rfl⟩

/-- Witness for C5 at key 7: absent key evaluates to false, a deeply
non-nilable entry evaluates to true, and kind/underlying site are as
claimed. -/
theorem trigger_if_deep_nonnil_spec_witness :
    TriggerIfDeepNonNil.CheckConsume ⟨7⟩ [] = false ∧
    TriggerIfDeepNonNil.CheckConsume ⟨7⟩ [(7, ⟨true, false⟩)] = true ∧
    TriggerIfDeepNonNil.Kind ⟨7⟩ = TriggerKind.DeepConditional ∧
    TriggerIfDeepNonNil.UnderlyingSite ⟨7⟩ = some 7 :=
  ⟨(trigger_if_deep_nonnil_spec 7 []).2.1 rfl,
   (trigger_if_deep_nonnil_spec 7 [(7, ⟨true, false⟩)]).1.mpr ⟨⟨true, false⟩, rfl, rfl⟩,
   (trigger_if_deep_nonnil_spec 7 []).2.2.1,
   (trigger_if_deep_nonnil_spec 7 []).2.2.2⟩

/-- C6: every variant embedding the Tautology base behavior evaluates to
true on every annotation map (including the empty one); its Kind is Always
and its UnderlyingSite is none. -/
theorem tautology_triggers_spec (t : ConsumingAnnotationTrigger) (b : ConsumeTriggerTautology)
    (hb : ConsumingAnnotationTrigger.base t = BaseBehavior.tautology b) (annMap : Map) :
    ConsumingAnnotationTrigger.CheckConsume t annMap = true ∧
    ConsumingAnnotationTrigger.Kind t = TriggerKind.Always ∧
    ConsumingAnnotationTrigger.UnderlyingSite t = none := by
  unfold ConsumingAnnotationTrigger.CheckConsume ConsumingAnnotationTrigger.Kind
    ConsumingAnnotationTrigger.UnderlyingSite
  rw [hb]
  exact ⟨rfl, rfl, rfl⟩

/-- Witness for C6: the PtrLoad variant is Tautology-based, and on the
empty map it evaluates to true with kind Always and no underlying site. -/
theorem tautology_triggers_spec_witness :
    ConsumingAnnotationTrigger.base (.PtrLoad {}) = BaseBehavior.tautology {} ∧
    (ConsumingAnnotationTrigger.CheckConsume (.PtrLoad {}) [] = true ∧
      ConsumingAnnotationTrigger.Kind (.PtrLoad {}) = TriggerKind.Always ∧
      ConsumingAnnotationTrigger.UnderlyingSite (.PtrLoad {}) = none) :=
  ⟨rfl, tautology_triggers_spec (.PtrLoad {}) {} rfl []⟩

/-- C9: LocalVarAssignDeep embeds the Tautology base behavior, so its
CheckConsume returns true for every annotation map, while
VariadicParamAssignDeep embeds the shallow TriggerIfNonNil base behavior,
so its CheckConsume returns true iff its key is found and not
shallow-nilable. -/
theorem local_var_vs_variadic_deep_spec (b : ConsumeTriggerTautology) (v : TypesVar)
    (k : Key) (annMap : Map) :
    ConsumingAnnotationTrigger.CheckConsume (.LocalVarAssignDeep b v) annMap = true ∧
    ConsumingAnnotationTrigger.CheckConsume (.VariadicParamAssignDeep ⟨k⟩) annMap =
      TriggerIfNonNil.CheckConsume ⟨k⟩ annMap ∧
    (ConsumingAnnotationTrigger.CheckConsume (.VariadicParamAssignDeep ⟨k⟩) annMap = true ↔
      ∃ ann, Key.Lookup k annMap = some ann ∧ Annot.IsNilable ann = false) :=
  ⟨rfl, rfl, ifNonNil_check_iff k annMap⟩

/-- Witness for C9 at key 3 with a shallow-nilable entry: the local-variable
deep assignment still evaluates true, the variadic one evaluates false. -/
theorem local_var_vs_variadic_deep_spec_witness :
    ConsumingAnnotationTrigger.CheckConsume (.LocalVarAssignDeep {} ⟨0⟩) [(3, ⟨true, false⟩)] = true ∧
    (ConsumingAnnotationTrigger.CheckConsume (.VariadicParamAssignDeep ⟨3⟩) [(3, ⟨true, false⟩)] =
      TriggerIfNonNil.CheckConsume ⟨3⟩ [(3, ⟨true, false⟩)]) :=
  ⟨(local_var_vs_variadic_deep_spec {} ⟨0⟩ 3 [(3, ⟨true, false⟩)]).1,
   (local_var_vs_variadic_deep_spec {} ⟨0⟩ 3 [(3, ⟨true, false⟩)]).2.1⟩

/-- Helper: adding a list of nonces to a guard set is union with its
elements. -/
theorem guard_add_eq_union (gs : List GuardNonce) :
    ∀ s : GuardNonceSet, GuardNonceSet.Add s gs = s ∪ gs.toFinset := by
  induction gs with
  | nil =>
    intro s
    simp [GuardNonceSet.Add]
  | cons g rest ih =>
    intro s
    have h1 : GuardNonceSet.Add s (g :: rest) = GuardNonceSet.Add (insert g s) rest := rfl
    rw [h1, ih (insert g s), List.toFinset_cons, Finset.insert_union, Finset.union_insert]

/-- C3: stamping guards onto a slice keeps each record's trigger and
expression, replaces its guard set by the union of the prior guards and the
new guards (hence a superset of the prior guards), and resets GuardMatched
to false, record by record. -/
theorem consume_trigger_slice_as_guarded_spec (slice : List ConsumeTrigger)
    (guards : List GuardNonce) (i : Nat) (h : i < slice.length) :
    (ConsumeTriggerSliceAsGuarded slice guards).length = slice.length ∧
    ∃ h2 : i < (ConsumeTriggerSliceAsGuarded slice guards).length,
      ((ConsumeTriggerSliceAsGuarded slice guards).get ⟨i, h2⟩).Annot = (slice.get ⟨i, h⟩).Annot ∧
      ((ConsumeTriggerSliceAsGuarded slice guards).get ⟨i, h2⟩).Expr = (slice.get ⟨i, h⟩).Expr ∧
      ((ConsumeTriggerSliceAsGuarded slice guards).get ⟨i, h2⟩).Guards =
        (slice.get ⟨i, h⟩).Guards ∪ guards.toFinset ∧
      (slice.get ⟨i, h⟩).Guards ⊆ ((ConsumeTriggerSliceAsGuarded slice guards).get ⟨i, h2⟩).Guards ∧
      ((ConsumeTriggerSliceAsGuarded slice guards).get ⟨i, h2⟩).GuardMatched = false := by
  have hlen : (ConsumeTriggerSliceAsGuarded slice guards).length = slice.length := by
    simp [ConsumeTriggerSliceAsGuarded]
  refine ⟨hlen, by rw [hlen]; exact h, ?_, ?_, ?_, ?_, ?_⟩ <;>
    simp [ConsumeTriggerSliceAsGuarded, List.get_eq_getElem, GuardNonceSet.Copy,
      guard_add_eq_union]

/-- Witness for C3: stamping guard 7 onto a one-record slice with guards
{2} yields guards {2, 7}, same trigger and expression, GuardMatched reset
to false even though the input had it set. -/
theorem consume_trigger_slice_as_guarded_spec_witness :
    (0 : Nat) < ([{ Annot := .PtrLoad {}, Expr := ⟨1, 10⟩, Guards := {2}, GuardMatched := true }] :
        List ConsumeTrigger).length ∧
    ((ConsumeTriggerSliceAsGuarded
        [{ Annot := .PtrLoad {}, Expr := ⟨1, 10⟩, Guards := {2}, GuardMatched := true }]
        [7]).length = 1 ∧
      ∃ h2 : (0 : Nat) < (ConsumeTriggerSliceAsGuarded
          [{ Annot := .PtrLoad {}, Expr := ⟨1, 10⟩, Guards := {2}, GuardMatched := true }]
          [7]).length,
        ((ConsumeTriggerSliceAsGuarded
            [{ Annot := .PtrLoad {}, Expr := ⟨1, 10⟩, Guards := {2}, GuardMatched := true }]
            [7]).get ⟨0, h2⟩).Annot = ConsumingAnnotationTrigger.PtrLoad {} ∧
        ((ConsumeTriggerSliceAsGuarded
            [{ Annot := .PtrLoad {}, Expr := ⟨1, 10⟩, Guards := {2}, GuardMatched := true }]
            [7]).get ⟨0, h2⟩).Expr = (⟨1, 10⟩ : AstExpr) ∧
        ((ConsumeTriggerSliceAsGuarded
            [{ Annot := .PtrLoad {}, Expr := ⟨1, 10⟩, Guards := {2}, GuardMatched := true }]
            [7]).get ⟨0, h2⟩).Guards = ({2, 7} : GuardNonceSet) ∧
        ((ConsumeTriggerSliceAsGuarded
            [{ Annot := .PtrLoad {}, Expr := ⟨1, 10⟩, Guards := {2}, GuardMatched := true }]
            [7]).get ⟨0, h2⟩).GuardMatched = false) := by
  have h0 : (0 : Nat) < ([{ Annot := .PtrLoad {}, Expr := ⟨1, 10⟩, Guards := {2}, GuardMatched := true }] :
      List ConsumeTrigger).length := by decide
  have hmain := consume_trigger_slice_as_guarded_spec
    [{ Annot := .PtrLoad {}, Expr := ⟨1, 10⟩, Guards := {2}, GuardMatched := true }] [7] 0 h0
  rcases hmain with ⟨hlen, h2, ha, he, hg, _hsub, hm⟩
  refine ⟨h0, hlen, h2, ha, he, ?_, hm⟩
  rw [hg]
  rfl

/-- Description of the position-override rule in the spec's terms: the
return statement stored by a named-return-sensitive variant when its
IsNamedReturn flag is set, none otherwise. The code has four such variants:
UseAsErrorResult, UseAsReturn, UseAsNonErrorRetDependentOnErrorRetNilability
and UseAsErrorRetWithNilabilityUnknown. -/
def namedReturnStmt : ConsumingAnnotationTrigger → Option ReturnStmt
  | .UseAsErrorResult _ rs true => some rs
  | .UseAsReturn _ true rs => some rs
  | .UseAsNonErrorRetDependentOnErrorRetNilability _ true rs => some rs
  | .UseAsErrorRetWithNilabilityUnknown _ true rs => some rs
  | _ => none

/-- C7 counterexample: the claim names exactly three position-overriding
variants (error-result return, general return, ambiguous-error-return), so
for the fourth variant, UseAsNonErrorRetDependentOnErrorRetNilability, it
asserts that Pos returns the position of the consumed expression; but with
IsNamedReturn set the code returns the stored return statement's position
(55), not the expression's (33). -/
theorem pos_override_counterexample :
    ConsumeTrigger.Pos
      { Annot := .UseAsNonErrorRetDependentOnErrorRetNilability ⟨0⟩ true ⟨9, 55⟩
        Expr := { id := 1, pos := 33 }
        Guards := ∅
        GuardMatched := false } = 55 ∧
    AstExpr.Pos
      (ConsumeTrigger.Expr
        { Annot := .UseAsNonErrorRetDependentOnErrorRetNilability ⟨0⟩ true ⟨9, 55⟩
          Expr := { id := 1, pos := 33 }
          Guards := ∅
          GuardMatched := false }) = 33 ∧
    ConsumeTrigger.Pos
      { Annot := .UseAsNonErrorRetDependentOnErrorRetNilability ⟨0⟩ true ⟨9, 55⟩
        Expr := { id := 1, pos := 33 }
        Guards := ∅
        GuardMatched := false } ≠
      AstExpr.Pos
        (ConsumeTrigger.Expr
          { Annot := .UseAsNonErrorRetDependentOnErrorRetNilability ⟨0⟩ true ⟨9, 55⟩
            Expr := { id := 1, pos := 33 }
            Guards := ∅
            GuardMatched := false }) := by
  exact ⟨rfl, rfl, by decide⟩

/-- C7 (amended): Pos returns an overridden position pointing at the stored
return statement exactly for the four named-return-sensitive variants
(error-result return, general return, non-error return dependent on the
error return, ambiguous-error-return) and only when the record's
IsNamedReturn flag is true; for every other variant, and for those four
with IsNamedReturn false, it returns the position of the consumed
expression. -/
theorem pos_override_spec (c : ConsumeTrigger) :
    (∀ rs, namedReturnStmt c.Annot = some rs → ConsumeTrigger.Pos c = ReturnStmt.Pos rs) ∧
    (namedReturnStmt c.Annot = none → ConsumeTrigger.Pos c = AstExpr.Pos c.Expr) := by
  rcases c with ⟨a, e, g, m⟩
  cases a
  case UseAsErrorResult b rs flag =>
    cases flag
    · exact ⟨fun rs2 h => (nomatch h), fun _ => rfl⟩
    · exact ⟨fun rs2 h => by cases h; rfl, fun h => (nomatch h)⟩
  case UseAsReturn b flag rs =>
    cases flag
    · exact ⟨fun rs2 h => (nomatch h), fun _ => rfl⟩
    · exact ⟨fun rs2 h => by cases h; rfl, fun h => (nomatch h)⟩
  case UseAsNonErrorRetDependentOnErrorRetNilability b flag rs =>
    cases flag
    · exact ⟨fun rs2 h => (nomatch h), fun _ => rfl⟩
    · exact ⟨fun rs2 h => by cases h; rfl, fun h => (nomatch h)⟩
  case UseAsErrorRetWithNilabilityUnknown b flag rs =>
    cases flag
    · exact ⟨fun rs2 h => (nomatch h), fun _ => rfl⟩
    · exact ⟨fun rs2 h => by cases h; rfl, fun h => (nomatch h)⟩
  all_goals exact ⟨fun rs2 h => (nomatch h), fun _ => rfl⟩

/-- Witness for C7 (amended): a named general return reports the return
statement's position, an unnamed one reports the expression's position. -/
theorem pos_override_spec_witness :
    namedReturnStmt (ConsumingAnnotationTrigger.UseAsReturn ⟨0⟩ true ⟨9, 55⟩) =
      some (⟨9, 55⟩ : ReturnStmt) ∧
    ConsumeTrigger.Pos
      { Annot := .UseAsReturn ⟨0⟩ true ⟨9, 55⟩, Expr := ⟨1, 33⟩, Guards := ∅,
        GuardMatched := false } = ReturnStmt.Pos (⟨9, 55⟩ : ReturnStmt) ∧
    namedReturnStmt (ConsumingAnnotationTrigger.UseAsReturn ⟨0⟩ false ⟨9, 55⟩) = none ∧
    ConsumeTrigger.Pos
      { Annot := .UseAsReturn ⟨0⟩ false ⟨9, 55⟩, Expr := ⟨1, 33⟩, Guards := ∅,
        GuardMatched := false } =
      AstExpr.Pos (⟨1, 33⟩ : AstExpr) :=
  ⟨rfl,
   (pos_override_spec
     { Annot := .UseAsReturn ⟨0⟩ true ⟨9, 55⟩, Expr := ⟨1, 33⟩, Guards := ∅,
       GuardMatched := false }).1 ⟨9, 55⟩ rfl,
   rfl,
   (pos_override_spec
     { Annot := .UseAsReturn ⟨0⟩ false ⟨9, 55⟩, Expr := ⟨1, 33⟩, Guards := ∅,
       GuardMatched := false }).2 rfl⟩

/-- Helper: the match test holds iff trigger and expression agree. -/
theorem sameOb_true_iff (a b : ConsumeTrigger) :
    sameOb a b = true ↔ a.Annot = b.Annot ∧ a.Expr = b.Expr := by
  simp [sameOb]

/-- Helper: the match test is reflexive. -/
theorem sameOb_refl (a : ConsumeTrigger) : sameOb a a = true := by
  simp [sameOb]

/-- Helper: the match test is symmetric. -/
theorem sameOb_symm (a b : ConsumeTrigger) : sameOb a b = sameOb b a := by
  rw [Bool.eq_iff_iff, sameOb_true_iff, sameOb_true_iff]
  constructor <;> rintro ⟨h1, h2⟩ <;> exact ⟨h1.symm, h2.symm⟩

/-- Helper: records matching the same record match each other (right
congruence along a match). -/
theorem sameOb_congr_right (a r o : ConsumeTrigger) (h : sameOb a r = true) :
    sameOb o r = sameOb o a := by
  rcases (sameOb_true_iff a r).mp h with ⟨h1, h2⟩
  simp [sameOb, ← h1, ← h2]

/-- Helper: left congruence of the match test along a match. -/
theorem sameOb_congr_left (a r o : ConsumeTrigger) (h : sameOb a r = true) :
    sameOb r o = sameOb a o := by
  rcases (sameOb_true_iff a r).mp h with ⟨h1, h2⟩
  simp [sameOb, ← h1, ← h2]

/-- Helper: merging keeps the matching key of the already-placed record. -/
theorem sameOb_mergeRec_left (a b c : ConsumeTrigger) :
    sameOb (mergeRec a b) c = sameOb a c := by
  simp [sameOb, mergeRec]

/-- Helper: merging keeps the matching key, right side. -/
theorem sameOb_mergeRec_right (a b c : ConsumeTrigger) :
    sameOb c (mergeRec a b) = sameOb c a := by
  simp [sameOb, mergeRec]

/-- Helper: when no accumulated record matches, addToOut appends. -/
theorem addToOut_of_no_match (t : ConsumeTrigger) :
    ∀ out, (∀ o ∈ out, sameOb o t = false) → addToOut out t = out ++ [t] := by
  intro out
  induction out with
  | nil => intro _; rfl
  | cons a rest ih =>
    intro h
    have ha : sameOb a t = false := h a (List.mem_cons_self a rest)
    simp only [addToOut, ha, Bool.false_eq_true, if_false, List.cons_append, List.cons.injEq,
      true_and]
    exact ih (fun o ho => h o (List.mem_cons_of_mem a ho))

/-- Helper: addToOut replaces the first matching accumulated record in
place with the merged record. -/
theorem addToOut_of_match (t a : ConsumeTrigger) (a2 : List ConsumeTrigger)
    (ha : sameOb a t = true) :
    ∀ a1, (∀ o ∈ a1, sameOb o t = false) →
      addToOut (a1 ++ a :: a2) t = a1 ++ mergeRec a t :: a2 := by
  intro a1
  induction a1 with
  | nil =>
    intro _
    simp [addToOut, ha]
  | cons x rest ih =>
    intro h
    have hx : sameOb x t = false := h x (List.mem_cons_self x rest)
    simp only [List.cons_append, addToOut, hx, Bool.false_eq_true, if_false, List.cons.injEq,
      true_and]
    exact ih (fun o ho => h o (List.mem_cons_of_mem x ho))

/-- Helper: every record in addToOut's output is an input record, the added
record, or a merge of an input record with the added one. -/
theorem mem_addToOut (t b : ConsumeTrigger) :
    ∀ out, b ∈ addToOut out t → b ∈ out ∨ b = t ∨ ∃ o ∈ out, b = mergeRec o t := by
  intro out
  induction out with
  | nil =>
    intro h
    simp only [addToOut, List.mem_singleton] at h
    exact Or.inr (Or.inl h)
  | cons a rest ih =>
    intro h
    by_cases hs : sameOb a t = true
    · simp only [addToOut, hs, if_true, List.mem_cons] at h
      rcases h with h | h
      · exact Or.inr (Or.inr ⟨a, List.mem_cons_self a rest, h⟩)
      · exact Or.inl (List.mem_cons_of_mem a h)
    · rw [Bool.not_eq_true] at hs
      simp only [addToOut, hs, Bool.false_eq_true, if_false, List.mem_cons] at h
      rcases h with h | h
      · exact Or.inl (by simp [h])
      · rcases ih h with h1 | h2 | ⟨o, ho, he⟩
        · exact Or.inl (List.mem_cons_of_mem a h1)
        · exact Or.inr (Or.inl h2)
        · exact Or.inr (Or.inr ⟨o, List.mem_cons_of_mem a ho, he⟩)

/-- Helper: addToOut preserves key-uniqueness of the accumulator. -/
theorem noDupKeys_addToOut (t : ConsumeTrigger) :
    ∀ out, NoDupKeys out → NoDupKeys (addToOut out t) := by
  intro out
  induction out with
  | nil =>
    intro _
    simp [addToOut, NoDupKeys]
  | cons a rest ih =>
    intro h
    rw [NoDupKeys, List.pairwise_cons] at h
    by_cases hs : sameOb a t = true
    · simp only [addToOut, hs, if_true]
      rw [NoDupKeys, List.pairwise_cons]
      refine ⟨fun b hb => ?_, h.2⟩
      rw [sameOb_mergeRec_left]
      exact h.1 b hb
    · rw [Bool.not_eq_true] at hs
      simp only [addToOut, hs, Bool.false_eq_true, if_false]
      rw [NoDupKeys, List.pairwise_cons]
      refine ⟨fun b hb => ?_, ih h.2⟩
      rcases mem_addToOut t b rest hb with h1 | h2 | ⟨o, ho, he⟩
      · exact h.1 b h1
      · rw [h2]
        exact hs
      · rw [he, sameOb_mergeRec_right]
        exact h.1 o ho

/-- Helper: folding addToOut preserves key-uniqueness. -/
theorem noDupKeys_foldl_addToOut (l : List ConsumeTrigger) :
    ∀ acc, NoDupKeys acc → NoDupKeys (l.foldl addToOut acc) := by
  induction l with
  | nil => intro acc h; exact h
  | cons x xs ih =>
    intro acc h
    rw [List.foldl_cons]
    exact ih (addToOut acc x) (noDupKeys_addToOut x acc h)

/-- Helper: merge output never contains two records with the same matching
key, regardless of the inputs. -/
theorem noDupKeys_merge (left right : List ConsumeTrigger) :
    NoDupKeys (MergeConsumeTriggerSlices left right) := by
  unfold MergeConsumeTriggerSlices
  exact noDupKeys_foldl_addToOut right _
    (noDupKeys_foldl_addToOut left [] (List.Pairwise.nil))

/-- Helper: a list with a true `any` splits at its first match. -/
theorem exists_first_match {α : Type} (p : α → Bool) :
    ∀ l : List α, l.any p = true →
      ∃ l1 a l2, l = l1 ++ a :: l2 ∧ p a = true ∧ ∀ o ∈ l1, p o = false := by
  intro l
  induction l with
  | nil => intro h; simp at h
  | cons x xs ih =>
    intro h
    by_cases hx : p x = true
    · exact ⟨[], x, xs, rfl, hx, by simp⟩
    · have hxs : xs.any p = true := by
        rw [List.any_cons] at h
        rcases Bool.or_eq_true_iff.mp h with h1 | h2
        · exact absurd h1 hx
        · exact h2
      rcases ih hxs with ⟨l1, a, l2, he, hpa, hl1⟩
      refine ⟨x :: l1, a, l2, by rw [he, List.cons_append], hpa, ?_⟩
      intro o ho
      rcases List.mem_cons.mp ho with rfl | ho2
      · exact Bool.not_eq_true _ ▸ Bool.eq_false_iff.mpr hx
      · exact hl1 o ho2

/-- Helper: replacing one record by another with the same matching key
preserves key-uniqueness. -/
theorem noDupKeys_replace (a1 a2 : List ConsumeTrigger) (a a' : ConsumeTrigger)
    (hkey : ∀ x, sameOb a' x = sameOb a x) (hkey2 : ∀ x, sameOb x a' = sameOb x a)
    (h : NoDupKeys (a1 ++ a :: a2)) : NoDupKeys (a1 ++ a' :: a2) := by
  rw [NoDupKeys, List.pairwise_append, List.pairwise_cons] at h ⊢
  obtain ⟨h1, ⟨h2a, h2b⟩, h3⟩ := h
  refine ⟨h1, ⟨fun b hb => ?_, h2b⟩, ?_⟩
  · rw [hkey]
    exact h2a b hb
  · intro p hp q hq
    rcases List.mem_cons.mp hq with rfl | hq2
    · rw [hkey2]
      exact h3 p hp a (List.mem_cons_self a a2)
    · exact h3 p hp q (List.mem_cons_of_mem a hq2)

/-- Helper: merging the empty accumulator with a slice returns the slice. -/
theorem mergeSpecFn_nil_left (l : List ConsumeTrigger) : mergeSpecFn [] l = l := by
  simp [mergeSpecFn]

/-- Helper: appending a fresh-key record to the accumulator commutes with
consuming it from the head of the right slice. -/
theorem mergeSpecFn_append_single (acc : List ConsumeTrigger) (r : ConsumeTrigger)
    (rs : List ConsumeTrigger)
    (hall : ∀ o ∈ acc, sameOb o r = false)
    (hrs : ∀ s ∈ rs, sameOb r s = false) :
    mergeSpecFn (acc ++ [r]) rs = mergeSpecFn acc (r :: rs) := by
  unfold mergeSpecFn
  have hfr : rs.find? (fun s => sameOb r s) = none :=
    List.find?_eq_none.mpr fun x hx => by simp [hrs x hx]
  have hganyr : (acc.any fun l => sameOb l r) = false :=
    List.any_eq_false.mpr fun x hx => by simp [hall x hx]
  have emap : (acc.map fun l =>
      match (r :: rs).find? (fun r2 => sameOb l r2) with
      | some r2 => mergeRec l r2
      | none => l) =
      acc.map fun l =>
      match rs.find? (fun r2 => sameOb l r2) with
      | some r2 => mergeRec l r2
      | none => l :=
    List.map_congr_left fun l hl => by
      rw [List.find?_cons_of_neg rs (by simp [hall l hl])]
  have er : (match rs.find? (fun r2 => sameOb r r2) with
      | some r2 => mergeRec r r2
      | none => r) = r := by
    rw [show rs.find? (fun r2 => sameOb r r2) = none from hfr]
  have efil : (rs.filter fun r2 => !((acc ++ [r]).any fun l => sameOb l r2)) =
      rs.filter fun r2 => !(acc.any fun l => sameOb l r2) :=
    List.filter_congr fun s hs => by
      rw [List.any_append, List.any_cons, List.any_nil, hrs s hs]
      simp
  have edrop : ((r :: rs).filter fun r2 => !(acc.any fun l => sameOb l r2)) =
      r :: rs.filter fun r2 => !(acc.any fun l => sameOb l r2) :=
    List.filter_cons_of_pos (by simp [hganyr])
  rw [List.map_append, List.map_cons, List.map_nil, er, emap, efil, edrop,
    List.append_assoc, List.singleton_append]

/-- Helper: replacing the first matching accumulator record with the merged
record commutes with consuming the matching record from the head of the
right slice. -/
theorem mergeSpecFn_replace (a1 : List ConsumeTrigger) (a : ConsumeTrigger)
    (a2 : List ConsumeTrigger) (r : ConsumeTrigger) (rs : List ConsumeTrigger)
    (hpa : sameOb a r = true)
    (ha1 : ∀ o ∈ a1, sameOb o r = false)
    (hacc : NoDupKeys (a1 ++ a :: a2))
    (hrs : ∀ s ∈ rs, sameOb r s = false) :
    mergeSpecFn (a1 ++ mergeRec a r :: a2) rs = mergeSpecFn (a1 ++ a :: a2) (r :: rs) := by
  unfold mergeSpecFn
  have ha2 : ∀ o ∈ a2, sameOb o r = false := by
    intro o ho
    have hao : sameOb a o = false := by
      rw [NoDupKeys, List.pairwise_append] at hacc
      have h2 := hacc.2.1
      rw [List.pairwise_cons] at h2
      exact h2.1 o ho
    rw [sameOb_congr_right a r o hpa, sameOb_symm]
    exact hao
  have hmr : ∀ s, sameOb (mergeRec a r) s = sameOb r s := by
    intro s
    rw [sameOb_mergeRec_left, sameOb_congr_left a r s hpa]
  have hfmr : rs.find? (fun s => sameOb (mergeRec a r) s) = none :=
    List.find?_eq_none.mpr fun x hx => by simp [hmr x, hrs x hx]
  have hrdrop : ((a1 ++ a :: a2).any fun l => sameOb l r) = true :=
    List.any_eq_true.mpr ⟨a, by simp, hpa⟩
  have emid1 : (match rs.find? (fun r2 => sameOb (mergeRec a r) r2) with
      | some r2 => mergeRec (mergeRec a r) r2
      | none => mergeRec a r) = mergeRec a r := by
    rw [show rs.find? (fun r2 => sameOb (mergeRec a r) r2) = none from hfmr]
  have emid2 : (match (r :: rs).find? (fun r2 => sameOb a r2) with
      | some r2 => mergeRec a r2
      | none => a) = mergeRec a r := by
    rw [show (r :: rs).find? (fun r2 => sameOb a r2) = some r from
      List.find?_cons_of_pos rs hpa]
  have emap1 : (a1.map fun l =>
      match (r :: rs).find? (fun r2 => sameOb l r2) with
      | some r2 => mergeRec l r2
      | none => l) =
      a1.map fun l =>
      match rs.find? (fun r2 => sameOb l r2) with
      | some r2 => mergeRec l r2
      | none => l :=
    List.map_congr_left fun o ho => by
      rw [List.find?_cons_of_neg rs (by simp [ha1 o ho])]
  have emap2 : (a2.map fun l =>
      match (r :: rs).find? (fun r2 => sameOb l r2) with
      | some r2 => mergeRec l r2
      | none => l) =
      a2.map fun l =>
      match rs.find? (fun r2 => sameOb l r2) with
      | some r2 => mergeRec l r2
      | none => l :=
    List.map_congr_left fun o ho => by
      rw [List.find?_cons_of_neg rs (by simp [ha2 o ho])]
  have efil : (rs.filter fun r2 => !((a1 ++ mergeRec a r :: a2).any fun l => sameOb l r2)) =
      rs.filter fun r2 => !((a1 ++ a :: a2).any fun l => sameOb l r2) :=
    List.filter_congr fun s hs => by
      rw [List.any_append, List.any_cons, List.any_append, List.any_cons, hmr s,
        sameOb_congr_left a r s hpa]
  have edrop : ((r :: rs).filter fun r2 => !((a1 ++ a :: a2).any fun l => sameOb l r2)) =
      rs.filter fun r2 => !((a1 ++ a :: a2).any fun l => sameOb l r2) :=
    List.filter_cons_of_neg (by simp [hrdrop])
  rw [List.map_append, List.map_cons, List.map_append, List.map_cons, emid1, emid2,
    emap1, emap2, efil, edrop]

/-- Helper: folding addToOut over the right slice starting from a
key-unique accumulator computes mergeSpecFn. -/
theorem foldl_addToOut_spec :
    ∀ right : List ConsumeTrigger, NoDupKeys right →
    ∀ acc, NoDupKeys acc →
      right.foldl addToOut acc = mergeSpecFn acc right := by
  intro right
  induction right with
  | nil =>
    intro _ acc _
    simp [mergeSpecFn]
  | cons r rs ih =>
    intro hr acc hacc
    rw [NoDupKeys, List.pairwise_cons] at hr
    rw [List.foldl_cons]
    by_cases hmatch : (acc.any fun l => sameOb l r) = true
    · rcases exists_first_match _ acc hmatch with ⟨b1, b, b2, hacc_eq, hpb, hb1⟩
      subst hacc_eq
      rw [addToOut_of_match r b b2 hpb b1 hb1]
      have hacc2 : NoDupKeys (b1 ++ mergeRec b r :: b2) :=
        noDupKeys_replace b1 b2 b (mergeRec b r)
          (fun x => sameOb_mergeRec_left b r x) (fun x => sameOb_mergeRec_right b r x) hacc
      rw [ih hr.2 _ hacc2]
      exact mergeSpecFn_replace b1 b b2 r rs hpb hb1 hacc hr.1
    · have hall : ∀ o ∈ acc, sameOb o r = false := by
        rw [Bool.not_eq_true, List.any_eq_false] at hmatch
        intro o ho
        exact Bool.not_eq_true _ ▸ Bool.eq_false_iff.mpr (hmatch o ho)
      rw [addToOut_of_no_match r acc hall]
      have hacc2 : NoDupKeys (acc ++ [r]) := by
        rw [NoDupKeys, List.pairwise_append]
        refine ⟨hacc, by simp [NoDupKeys], ?_⟩
        intro x hx y hy
        rw [List.mem_singleton] at hy
        rw [hy]
        exact hall x hx
      rw [ih hr.2 _ hacc2]
      exact mergeSpecFn_append_single acc r rs hall hr.1

/-- Helper: under key-unique inputs the merge computes mergeSpecFn. -/
theorem merge_eq_mergeSpecFn (left right : List ConsumeTrigger)
    (hl : NoDupKeys left) (hr : NoDupKeys right) :
    MergeConsumeTriggerSlices left right = mergeSpecFn left right := by
  unfold MergeConsumeTriggerSlices
  have h1 : left.foldl addToOut [] = left := by
    rw [foldl_addToOut_spec left hl [] List.Pairwise.nil, mergeSpecFn_nil_left]
  rw [h1]
  exact foldl_addToOut_spec right hr left hl

/-- Helper: in a key-unique slice, find? on a key returns the unique
matching record. -/
theorem find_eq_of_mem_noDupKeys (right : List ConsumeTrigger) (hr : NoDupKeys right)
    (l r : ConsumeTrigger) (hrmem : r ∈ right) (hsame : sameOb l r = true) :
    right.find? (fun s => sameOb l s) = some r := by
  have hsome : (right.find? (fun s => sameOb l s)).isSome = true :=
    List.find?_isSome.mpr ⟨r, hrmem, hsame⟩
  rcases Option.isSome_iff_exists.mp hsome with ⟨r2, hfind⟩
  have hp2 : sameOb l r2 = true := List.find?_some hfind
  have hmem2 : r2 ∈ right := List.mem_of_find?_eq_some hfind
  by_cases heq : r2 = r
  · rw [heq] at hfind
    exact hfind
  · exfalso
    have hsymmrel : Symmetric fun a b : ConsumeTrigger => sameOb a b = false := by
      intro x y hxy
      rw [sameOb_symm]
      exact hxy
    have hfalse : sameOb r2 r = false := List.Pairwise.forall hsymmrel hr hmem2 hrmem heq
    have htrue : sameOb r2 r = true := by
      rcases (sameOb_true_iff l r2).mp hp2 with ⟨h1, h2⟩
      rcases (sameOb_true_iff l r).mp hsame with ⟨h3, h4⟩
      exact (sameOb_true_iff r2 r).mpr ⟨h1 ▸ h3, h2 ▸ h4⟩
    rw [htrue] at hfalse
    cases hfalse

/-- C1: for key-unique input slices, an obligation appearing in both inputs
(same trigger value and expression reference) yields a merged record whose
guard set is the intersection of the two incoming guard sets and whose
GuardMatched is the AND of the two flags, while an obligation present in
only one input passes through unchanged. -/
theorem merge_matched_and_one_sided_spec (left right : List ConsumeTrigger)
    (hl : NoDupKeys left) (hr : NoDupKeys right) :
    (∀ l ∈ left, ∀ r ∈ right, sameOb l r = true →
      ({ Annot := l.Annot, Expr := l.Expr,
         Guards := GuardNonceSet.Intersection l.Guards r.Guards,
         GuardMatched := l.GuardMatched && r.GuardMatched } : ConsumeTrigger) ∈
        MergeConsumeTriggerSlices left right) ∧
    (∀ l ∈ left, (∀ r ∈ right, sameOb l r = false) →
      l ∈ MergeConsumeTriggerSlices left right) ∧
    (∀ r ∈ right, (∀ l ∈ left, sameOb l r = false) →
      r ∈ MergeConsumeTriggerSlices left right) := by
  rw [merge_eq_mergeSpecFn left right hl hr]
  refine ⟨?_, ?_, ?_⟩
  · intro l hlmem r hrmem hsame
    apply List.mem_append_left
    rw [List.mem_map]
    refine ⟨l, hlmem, ?_⟩
    rw [find_eq_of_mem_noDupKeys right hr l r hrmem hsame]
    rfl
  · intro l hlmem hnone
    apply List.mem_append_left
    rw [List.mem_map]
    refine ⟨l, hlmem, ?_⟩
    rw [List.find?_eq_none.mpr fun x hx => by simp [hnone x hx]]
  · intro r hrmem hnone
    apply List.mem_append_right
    rw [List.mem_filter]
    refine ⟨hrmem, ?_⟩
    simp only [Bool.not_eq_eq_eq_not, Bool.not_true]
    exact List.any_eq_false.mpr fun x hx => by simp [hnone x hx]

/-- Witness for C1: merging a single matched pair with guards {1,2} and
{2,3} and flags true/false produces the record with guards given by the
intersection and flag by the AND; a key-distinct record on the right passes
through unchanged. -/
theorem merge_matched_and_one_sided_spec_witness :
    NoDupKeys [{ Annot := .PtrLoad {}, Expr := ⟨1, 10⟩, Guards := {1, 2}, GuardMatched := true }] ∧
    NoDupKeys [{ Annot := .PtrLoad {}, Expr := ⟨1, 10⟩, Guards := {2, 3}, GuardMatched := false },
      { Annot := .FldAccess {}, Expr := ⟨2, 20⟩, Guards := ∅, GuardMatched := false }] ∧
    ({ Annot := ConsumingAnnotationTrigger.PtrLoad {}, Expr := ⟨1, 10⟩,
       Guards := GuardNonceSet.Intersection {1, 2} {2, 3},
       GuardMatched := true && false } : ConsumeTrigger) ∈
      MergeConsumeTriggerSlices
        [{ Annot := .PtrLoad {}, Expr := ⟨1, 10⟩, Guards := {1, 2}, GuardMatched := true }]
        [{ Annot := .PtrLoad {}, Expr := ⟨1, 10⟩, Guards := {2, 3}, GuardMatched := false },
         { Annot := .FldAccess {}, Expr := ⟨2, 20⟩, Guards := ∅, GuardMatched := false }] ∧
    ({ Annot := .FldAccess {}, Expr := ⟨2, 20⟩, Guards := ∅, GuardMatched := false } : ConsumeTrigger) ∈
      MergeConsumeTriggerSlices
        [{ Annot := .PtrLoad {}, Expr := ⟨1, 10⟩, Guards := {1, 2}, GuardMatched := true }]
        [{ Annot := .PtrLoad {}, Expr := ⟨1, 10⟩, Guards := {2, 3}, GuardMatched := false },
         { Annot := .FldAccess {}, Expr := ⟨2, 20⟩, Guards := ∅, GuardMatched := false }] := by
  refine ⟨by decide, by decide, ?_, ?_⟩
  · exact (merge_matched_and_one_sided_spec _ _ (by decide) (by decide)).1
      { Annot := .PtrLoad {}, Expr := ⟨1, 10⟩, Guards := {1, 2}, GuardMatched := true }
      (by decide)
      { Annot := .PtrLoad {}, Expr := ⟨1, 10⟩, Guards := {2, 3}, GuardMatched := false }
      (by decide) (by decide)
  · exact (merge_matched_and_one_sided_spec _ _ (by decide) (by decide)).2.2
      { Annot := .FldAccess {}, Expr := ⟨2, 20⟩, Guards := ∅, GuardMatched := false }
      (by decide) (by decide)

/-- Helper: the match test holds exactly when the matching keys agree. -/
theorem matchKey_eq_iff (a b : ConsumeTrigger) :
    sameOb a b = true ↔ matchKey a = matchKey b := by
  rw [sameOb_true_iff]
  simp [matchKey, Prod.ext_iff]

/-- Helper: key-uniqueness is exactly distinctness of the key list. -/
theorem noDupKeys_iff_nodup_keys (l : List ConsumeTrigger) :
    NoDupKeys l ↔ (l.map matchKey).Nodup := by
  rw [NoDupKeys, List.Nodup, List.pairwise_map]
  constructor <;> intro h
  · refine h.imp ?_
    intro a b hab
    intro hcon
    rw [(matchKey_eq_iff a b).mpr hcon] at hab
    cases hab
  · refine h.imp ?_
    intro a b hab
    rw [Bool.eq_false_iff]
    intro hcon
    exact hab ((matchKey_eq_iff a b).mp hcon)

/-- Helper: the key list of the merge output is the left key list followed
by the keys of the right-only records. -/
theorem merge_keys (left right : List ConsumeTrigger)
    (hl : NoDupKeys left) (hr : NoDupKeys right) :
    (MergeConsumeTriggerSlices left right).map matchKey =
      left.map matchKey ++
        (right.filter fun r => !(left.any fun l => sameOb l r)).map matchKey := by
  rw [merge_eq_mergeSpecFn left right hl hr]
  unfold mergeSpecFn
  rw [List.map_append]
  congr 1
  rw [List.map_map]
  apply List.map_congr_left
  intro l hl2
  cases hf : right.find? (fun r => sameOb l r) with
  | some r => simp [Function.comp, hf, matchKey, mergeRec]
  | none => simp [Function.comp, hf]

/-- Helper: the merge output's length is the number of distinct matching
keys among both inputs. -/
theorem merge_card (left right : List ConsumeTrigger)
    (hl : NoDupKeys left) (hr : NoDupKeys right) :
    (MergeConsumeTriggerSlices left right).length =
      ((left ++ right).map matchKey).toFinset.card := by
  have hkeys := merge_keys left right hl hr
  have hnodup : ((MergeConsumeTriggerSlices left right).map matchKey).Nodup :=
    (noDupKeys_iff_nodup_keys _).mp (noDupKeys_merge left right)
  have hlen : (MergeConsumeTriggerSlices left right).length =
      ((MergeConsumeTriggerSlices left right).map matchKey).length :=
    (List.length_map _ _).symm
  rw [hlen, ← List.toFinset_card_of_nodup hnodup]
  congr 1
  apply Finset.ext
  intro x
  rw [List.mem_toFinset, List.mem_toFinset, hkeys]
  simp only [List.mem_append, List.mem_map, List.mem_filter]
  constructor
  · rintro (⟨a, ha, rfl⟩ | ⟨a, ⟨ha, _⟩, rfl⟩)
    · exact ⟨a, Or.inl ha, rfl⟩
    · exact ⟨a, Or.inr ha, rfl⟩
  · rintro ⟨a, ha | ha, rfl⟩
    · exact Or.inl ⟨a, ha, rfl⟩
    · by_cases hany : (left.any fun l => sameOb l a) = true
      · rcases List.any_eq_true.mp hany with ⟨l0, hl0, hs⟩
        exact Or.inl ⟨l0, hl0, ((matchKey_eq_iff l0 a).mp hs)⟩
      · refine Or.inr ⟨a, ⟨ha, ?_⟩, rfl⟩
        rw [Bool.not_eq_true] at hany
        rw [hany]
        rfl

/-- C2: for key-unique inputs the merge is a set-union on the matching key
(trigger value, expression reference): the output is the left records (each
merged with its unique right match if any) followed by the right-only
records in order, its length is the number of distinct keys in the union of
the inputs, and it contains no two records with the same key. -/
theorem merge_is_set_union_spec (left right : List ConsumeTrigger)
    (hl : NoDupKeys left) (hr : NoDupKeys right) :
    MergeConsumeTriggerSlices left right =
      (left.map fun l =>
        match right.find? (fun r => sameOb l r) with
        | some r => mergeRec l r
        | none => l) ++
      (right.filter fun r => !(left.any fun l => sameOb l r)) ∧
    (MergeConsumeTriggerSlices left right).length =
      ((left ++ right).map matchKey).toFinset.card ∧
    NoDupKeys (MergeConsumeTriggerSlices left right) :=
  ⟨merge_eq_mergeSpecFn left right hl hr, merge_card left right hl hr,
   noDupKeys_merge left right⟩

/-- Witness for C2: one overlapping obligation and one right-only
obligation give a merge of length 2, matching the number of distinct keys
(2), with key-unique output. -/
theorem merge_is_set_union_spec_witness :
    NoDupKeys [{ Annot := .PtrLoad {}, Expr := ⟨1, 10⟩, Guards := {1, 2}, GuardMatched := true }] ∧
    NoDupKeys [{ Annot := .PtrLoad {}, Expr := ⟨1, 10⟩, Guards := {2, 3}, GuardMatched := false },
      { Annot := .FldAccess {}, Expr := ⟨2, 20⟩, Guards := ∅, GuardMatched := false }] ∧
    (MergeConsumeTriggerSlices
      [{ Annot := .PtrLoad {}, Expr := ⟨1, 10⟩, Guards := {1, 2}, GuardMatched := true }]
      [{ Annot := .PtrLoad {}, Expr := ⟨1, 10⟩, Guards := {2, 3}, GuardMatched := false },
       { Annot := .FldAccess {}, Expr := ⟨2, 20⟩, Guards := ∅, GuardMatched := false }]).length = 2 ∧
    NoDupKeys (MergeConsumeTriggerSlices
      [{ Annot := .PtrLoad {}, Expr := ⟨1, 10⟩, Guards := {1, 2}, GuardMatched := true }]
      [{ Annot := .PtrLoad {}, Expr := ⟨1, 10⟩, Guards := {2, 3}, GuardMatched := false },
       { Annot := .FldAccess {}, Expr := ⟨2, 20⟩, Guards := ∅, GuardMatched := false }]) := by
  refine ⟨by decide, by decide, ?_, ?_⟩
  · rw [(merge_is_set_union_spec _ _ (by decide) (by decide)).2.1]
    decide
  · exact (merge_is_set_union_spec _ _ (by decide) (by decide)).2.2

/-- C10: a single input slice containing two records with the same trigger
value and expression reference is collapsed by the merge into one record
whose guards are the intersection of the duplicates' guard sets and whose
GuardMatched is their AND, even when the other side is empty; and the
output never contains two records with the same matching key, for all
inputs. -/
theorem merge_collapses_duplicates_spec :
    (∀ a b : ConsumeTrigger, sameOb a b = true →
      MergeConsumeTriggerSlices [a, b] [] =
        [{ Annot := a.Annot, Expr := a.Expr,
           Guards := GuardNonceSet.Intersection a.Guards b.Guards,
           GuardMatched := a.GuardMatched && b.GuardMatched }]) ∧
    ∀ left right : List ConsumeTrigger, NoDupKeys (MergeConsumeTriggerSlices left right) := by
  refine ⟨?_, noDupKeys_merge⟩
  intro a b h
  show List.foldl addToOut (List.foldl addToOut [] [a, b]) [] = _
  simp only [List.foldl_cons, List.foldl_nil]
  show addToOut (addToOut [] a) b = _
  rw [show addToOut [] a = [a] from rfl]
  simp only [addToOut, h, if_true]
  rfl

/-- Witness for C10: merging a slice holding the same obligation twice with
guards {1,2} / {2,3} and flags true / false against the empty slice yields
exactly one record. -/
theorem merge_collapses_duplicates_spec_witness :
    sameOb
      { Annot := .PtrLoad {}, Expr := ⟨1, 10⟩, Guards := {1, 2}, GuardMatched := true }
      { Annot := .PtrLoad {}, Expr := ⟨1, 10⟩, Guards := {2, 3}, GuardMatched := false } = true ∧
    MergeConsumeTriggerSlices
      [{ Annot := .PtrLoad {}, Expr := ⟨1, 10⟩, Guards := {1, 2}, GuardMatched := true },
       { Annot := .PtrLoad {}, Expr := ⟨1, 10⟩, Guards := {2, 3}, GuardMatched := false }] [] =
      [{ Annot := ConsumingAnnotationTrigger.PtrLoad {}, Expr := ⟨1, 10⟩,
         Guards := GuardNonceSet.Intersection {1, 2} {2, 3},
         GuardMatched := true && false }] :=
  ⟨by decide,
   merge_collapses_duplicates_spec.1
     { Annot := .PtrLoad {}, Expr := ⟨1, 10⟩, Guards := {1, 2}, GuardMatched := true }
     { Annot := .PtrLoad {}, Expr := ⟨1, 10⟩, Guards := {2, 3}, GuardMatched := false }
     (by decide)⟩

/-- Helper: in this model the record equality test Eq (same trigger value,
same expression reference, same guard set content, same GuardMatched flag)
coincides with structural equality of records. -/
theorem consume_trigger_eq_iff (c c2 : ConsumeTrigger) :
    ConsumeTrigger.Eq c c2 = true ↔ c = c2 := by
  rcases c with ⟨a, e, g, m⟩
  rcases c2 with ⟨a2, e2, g2, m2⟩
  simp only [ConsumeTrigger.Eq, Bool.and_eq_true, decide_eq_true_eq, ConsumeTrigger.mk.injEq]
  tauto

/-- Helper: the slice equality test holds iff lengths agree and every left
record occurs in the right slice. -/
theorem slicesEq_true_iff (l r : List ConsumeTrigger) :
    ConsumeTriggerSlicesEq l r = true ↔ l.length = r.length ∧ ∀ x ∈ l, x ∈ r := by
  unfold ConsumeTriggerSlicesEq
  by_cases h : l.length = r.length
  · rw [if_pos h]
    simp only [List.all_eq_true, List.any_eq_true, h, true_and]
    constructor
    · intro hx x hxl
      rcases hx x hxl with ⟨y, hy, he⟩
      rw [(consume_trigger_eq_iff x y).mp he]
      exact hy
    · intro hx x hxl
      exact ⟨x, hx x hxl, (consume_trigger_eq_iff x x).mpr rfl⟩
  · rw [if_neg h]
    simp [h]

/-- Helper: over duplicate-free slices the equality test holds iff both
slices have the same members. -/
theorem slicesEq_mem_iff (l r : List ConsumeTrigger) (hl : l.Nodup) (hr : r.Nodup) :
    ConsumeTriggerSlicesEq l r = true ↔ ∀ x, x ∈ l ↔ x ∈ r := by
  rw [slicesEq_true_iff]
  constructor
  · rintro ⟨hlen, hsub⟩
    have hfin : l.toFinset ⊆ r.toFinset := by
      intro y hy
      rw [List.mem_toFinset] at hy ⊢
      exact hsub y hy
    have hcard : r.toFinset.card ≤ l.toFinset.card := by
      rw [List.toFinset_card_of_nodup hl, List.toFinset_card_of_nodup hr, hlen]
    have heq := Finset.eq_of_subset_of_card_le hfin hcard
    intro x
    constructor
    · exact fun hx => hsub x hx
    · intro hx
      have hx2 : x ∈ r.toFinset := List.mem_toFinset.mpr hx
      rw [← heq] at hx2
      exact List.mem_toFinset.mp hx2
  · intro h
    have heq : l.toFinset = r.toFinset := by
      apply Finset.ext
      intro x
      rw [List.mem_toFinset, List.mem_toFinset]
      exact h x
    refine ⟨?_, fun x hx => (h x).mp hx⟩
    rw [← List.toFinset_card_of_nodup hl, ← List.toFinset_card_of_nodup hr, heq]

/-- C8: over duplicate-free slices ConsumeTriggerSlicesEq is reflexive,
symmetric and permutation-invariant; it holds iff both slices contain the
same obligations under Eq (which in this model is record equality), and it
is false whenever the lengths differ. -/
theorem consume_trigger_slices_eq_spec (left right : List ConsumeTrigger)
    (hl : left.Nodup) (hr : right.Nodup) :
    ConsumeTriggerSlicesEq left left = true ∧
    ConsumeTriggerSlicesEq left right = ConsumeTriggerSlicesEq right left ∧
    (∀ left2 right2, left.Perm left2 → right.Perm right2 →
      ConsumeTriggerSlicesEq left right = ConsumeTriggerSlicesEq left2 right2) ∧
    (ConsumeTriggerSlicesEq left right = true ↔ ∀ x, x ∈ left ↔ x ∈ right) ∧
    (left.length ≠ right.length → ConsumeTriggerSlicesEq left right = false) := by
  refine ⟨?_, ?_, ?_, slicesEq_mem_iff left right hl hr, ?_⟩
  · rw [slicesEq_true_iff]
    exact ⟨rfl, fun x hx => hx⟩
  · rw [Bool.eq_iff_iff, slicesEq_mem_iff left right hl hr, slicesEq_mem_iff right left hr hl]
    constructor <;> intro h x <;> exact (h x).symm
  · intro l2 r2 hpl hpr
    rw [Bool.eq_iff_iff, slicesEq_true_iff, slicesEq_true_iff]
    constructor
    · rintro ⟨h1, h2⟩
      refine ⟨by rw [← hpl.length_eq, ← hpr.length_eq]; exact h1, ?_⟩
      intro x hx
      exact hpr.mem_iff.mp (h2 x (hpl.mem_iff.mpr hx))
    · rintro ⟨h1, h2⟩
      refine ⟨by rw [hpl.length_eq, hpr.length_eq]; exact h1, ?_⟩
      intro x hx
      exact hpr.mem_iff.mpr (h2 x (hpl.mem_iff.mp hx))
  · intro h
    unfold ConsumeTriggerSlicesEq
    rw [if_neg h]

/-- Witness for C8: two-record duplicate-free slices that are permutations
of each other are accepted by the equality test, and the test is reflexive
on the left slice. -/
theorem consume_trigger_slices_eq_spec_witness :
    ([{ Annot := .PtrLoad {}, Expr := ⟨1, 10⟩, Guards := {1}, GuardMatched := true },
      { Annot := .FldAccess {}, Expr := ⟨2, 20⟩, Guards := ∅, GuardMatched := false }] :
      List ConsumeTrigger).Nodup ∧
    ([{ Annot := .FldAccess {}, Expr := ⟨2, 20⟩, Guards := ∅, GuardMatched := false },
      { Annot := .PtrLoad {}, Expr := ⟨1, 10⟩, Guards := {1}, GuardMatched := true }] :
      List ConsumeTrigger).Nodup ∧
    ConsumeTriggerSlicesEq
      [{ Annot := .PtrLoad {}, Expr := ⟨1, 10⟩, Guards := {1}, GuardMatched := true },
       { Annot := .FldAccess {}, Expr := ⟨2, 20⟩, Guards := ∅, GuardMatched := false }]
      [{ Annot := .PtrLoad {}, Expr := ⟨1, 10⟩, Guards := {1}, GuardMatched := true },
       { Annot := .FldAccess {}, Expr := ⟨2, 20⟩, Guards := ∅, GuardMatched := false }] = true ∧
    ConsumeTriggerSlicesEq
      [{ Annot := .PtrLoad {}, Expr := ⟨1, 10⟩, Guards := {1}, GuardMatched := true },
       { Annot := .FldAccess {}, Expr := ⟨2, 20⟩, Guards := ∅, GuardMatched := false }]
      [{ Annot := .FldAccess {}, Expr := ⟨2, 20⟩, Guards := ∅, GuardMatched := false },
       { Annot := .PtrLoad {}, Expr := ⟨1, 10⟩, Guards := {1}, GuardMatched := true }] = true := by
  refine ⟨by decide, by decide, ?_, ?_⟩
  · exact (consume_trigger_slices_eq_spec
      [{ Annot := .PtrLoad {}, Expr := ⟨1, 10⟩, Guards := {1}, GuardMatched := true },
       { Annot := .FldAccess {}, Expr := ⟨2, 20⟩, Guards := ∅, GuardMatched := false }]
      [{ Annot := .FldAccess {}, Expr := ⟨2, 20⟩, Guards := ∅, GuardMatched := false },
       { Annot := .PtrLoad {}, Expr := ⟨1, 10⟩, Guards := {1}, GuardMatched := true }]
      (by decide) (by decide)).1
  · exact (consume_trigger_slices_eq_spec
      [{ Annot := .PtrLoad {}, Expr := ⟨1, 10⟩, Guards := {1}, GuardMatched := true },
       { Annot := .FldAccess {}, Expr := ⟨2, 20⟩, Guards := ∅, GuardMatched := false }]
      [{ Annot := .FldAccess {}, Expr := ⟨2, 20⟩, Guards := ∅, GuardMatched := false },
       { Annot := .PtrLoad {}, Expr := ⟨1, 10⟩, Guards := {1}, GuardMatched := true }]
      (by decide) (by decide)).2.2.2.1.mpr
      (by intro x; constructor <;> intro hx <;> (simp only [List.mem_cons] at hx ⊢; tauto))

end NilAway
